import Mathlib

/-!
Shallow embedding of the bce-service-bos-transport resumable transfer engine:
the upload chunk planner (`MultiTransport._decompose`), the download Transport
state machine (`_checkFinish`, `_checkError`, `_onTimeout`, `pause`, the
`start()` metadata decision rule), the per-task upload part queue, and the
task Dispatcher (cache + bounded admission queue).

Machine integers are modelled as `Nat`/`Int` (sizes are non-negative byte
counts; modification times are signed millisecond epochs).  External
collaborators (the async queue library, lodash debounce) are modelled at their
interface boundary as the spec describes them; everything else is translated
from the JavaScript source.
-/

/-- `TransportStatus` from `src/headers` as used throughout the source:
states of a transfer task. -/
inductive TransportStatus
  | UnStarted
  | Running
  | Paused
  | Finished
  | Error
deriving DecidableEq, Repr

/-- The observable mutable fields of a Transport: `_uuid`, `_objectKey` and
`_state` from the downloader `Transport`, `_outputStream` presence modelled as
`streamOpen`, plus `_uploadId` / `_uploadedSize` from the uploader
`MultiTransport` (the two classes share the dispatcher contract). -/
structure Transport where
  uuid : String
  objectKey : String
  state : TransportStatus
  streamOpen : Bool
  uploadId : Option String
  uploadedSize : Nat
deriving DecidableEq, Repr

/-- Outbound notifications of the command protocol
(`NotifyStart/Rate/Paused/Finished/Error`). -/
inductive Notif
  | start (uuid : String)
  | rate (uuid objectKey : String) (rate bytesWritten : Nat)
  | pause (uuid : String)
  | finish (uuid objectKey : String)
  | error (uuid error : String)
deriving DecidableEq, Repr

/-- `Transport.isRunning` (downloader/index.js line 271). -/
def Transport.isRunning (t : Transport) : Bool :=
  t.state = TransportStatus.Running

/-- `Transport._checkFinish` (downloader/index.js lines 90-98): only a Running
task transitions to Finished and emits the finish notification; otherwise the
call is a no-op. -/
def Transport.checkFinish (t : Transport) : Transport × Option Notif :=
  if ¬ t.isRunning then (t, none)
  else ({t with state := TransportStatus.Finished},
        some (Notif.finish t.uuid t.objectKey))

/-- The shapes an error value can take at `_checkError`, in the order the
source tests them: a plain string, an `Error` instance (or any object with a
string `message`), an object with a `status_code` field, anything else. -/
inductive ErrShape
  | str (s : String)
  | errObj (message stack : String)
  | withStatus (code : Nat)
  | unknown
deriving DecidableEq, Repr

/-- `Transport._checkError` (downloader/index.js lines 107-123): only a
Running task transitions to Error; the emitted description depends on the
error's shape exactly as the if/else chain does. -/
def Transport.checkError (t : Transport) (err : ErrShape) : Transport × Option Notif :=
  if ¬ t.isRunning then (t, none)
  else
    let t' := {t with state := TransportStatus.Error}
    match err with
    | ErrShape.str s => (t', some (Notif.error t.uuid s))
    | ErrShape.errObj m stk => (t', some (Notif.error t.uuid (m ++ stk)))
    | ErrShape.withStatus c => (t', some (Notif.error t.uuid ("Server code = " ++ toString c)))
    | ErrShape.unknown => (t', some (Notif.error t.uuid "未知错误"))

/-- The action `Transport.start()` takes for a download once the local file
exists and the remote metadata arrived (downloader/index.js lines 246-268). -/
inductive StartAction
  | restart
  | rangeResume (rangeBegin rangeEnd : Nat)
  | finishNoRead
deriving DecidableEq, Repr

/-- The metadata decision rule of the download `Transport.start()`
(downloader/index.js lines 250-265): `size` / `xMetaSize` are the local and
remote byte sizes, `mtimeMs` / `xMetaModifiedTime` the local and remote
modification times in epoch milliseconds. -/
def downloadStartDecision (size xMetaSize : Nat) (mtimeMs xMetaModifiedTime : Int) :
    StartAction :=
  if size ≥ xMetaSize ∨ mtimeMs ≤ xMetaModifiedTime then
    StartAction.restart
  else if size < xMetaSize then
    StartAction.rangeResume size xMetaSize
  else
    StartAction.finishNoRead

/-- `kPartSize` (uploader Transport line 16): the configured 20 MiB part-size
floor. -/
def kPartSize : Nat := 20 * 1024 * 1024

/-- A planned upload part as produced by `_decompose`. -/
structure UploadPart where
  partNumber : Nat
  partSize : Nat
  start : Nat
deriving DecidableEq, Repr

/-- The while-loop of `_decompose` (uploader Transport lines 37-45), with a
fuel argument for structural recursion: each iteration emits
`min leftSize averagePartSize` bytes and advances, until `leftSize = 0`.
Fuel `≥ leftSize` is enough because every iteration with `averagePartSize ≥ 1`
consumes at least one byte; callers pass `leftSize` itself as fuel. -/
def decomposeLoop (averagePartSize : Nat) : Nat → Nat → Nat → Nat → List UploadPart
  | 0, _, _, _ => []
  | fuel + 1, leftSize, offset, partNumber =>
    if leftSize > 0 then
      ⟨partNumber, min leftSize averagePartSize, offset⟩ ::
        decomposeLoop averagePartSize fuel (leftSize - min leftSize averagePartSize)
          (offset + min leftSize averagePartSize) (partNumber + 1)
    else []

/-- `MultiTransport._decompose` (uploader Transport lines 26-48).  The source
computes `averagePartSize = max(kPartSize, Math.ceil(totalSize / (maxParts -
orderedParts.length)))`; the JavaScript arithmetic splits into three cases:
 * `orderedParts.length < maxParts`: a genuine ceiling division;
 * `orderedParts.length = maxParts`: division by zero gives `Infinity`
   whenever the loop runs at all (`leftSize > 0` forces `totalSize > 0`), so
   `min(leftSize, Infinity) = leftSize` and the loop emits a single part
   holding everything that is left;
 * `orderedParts.length > maxParts`: a negative divisor, `Math.ceil` of a
   non-positive quotient is `≤ 0`, and `Math.max` flushes it to `kPartSize`.
-/
def _decompose (orderedParts : List UploadPart) (maxParts uploadSize totalSize : Nat) :
    List UploadPart :=
  if orderedParts.length < maxParts then
    decomposeLoop
      (max kPartSize ((totalSize + (maxParts - orderedParts.length) - 1)
        / (maxParts - orderedParts.length)))
      (totalSize - uploadSize) (totalSize - uploadSize)
      uploadSize (orderedParts.length + 1)
  else if orderedParts.length = maxParts then
    if totalSize > uploadSize then
      [⟨orderedParts.length + 1, totalSize - uploadSize, uploadSize⟩]
    else []
  else
    decomposeLoop kPartSize (totalSize - uploadSize) (totalSize - uploadSize)
      uploadSize (orderedParts.length + 1)

/-- Sum of the `partSize` fields of a part list. -/
def partsSize (parts : List UploadPart) : Nat :=
  (parts.map UploadPart.partSize).sum

/-- `contiguousFrom ofs parts` holds when the parts' start offsets are
contiguous beginning at `ofs` (each part starts where the previous one
ended). -/
def contiguousFrom : Nat → List UploadPart → Bool
  | _, [] => true
  | ofs, p :: rest => (p.start == ofs) && contiguousFrom (ofs + p.partSize) rest

/-- `Transport.pause` (downloader/index.js lines 205-213): set the state to
Paused, end the output stream when one is open, emit the pause
notification. -/
def Transport.pause (t : Transport) : Transport × Notif :=
  ({t with state := TransportStatus.Paused, streamOpen := false},
   Notif.pause t.uuid)

/-- `Transport._onTimeout` (downloader/index.js lines 125-130): when the
output stream exists and the task is Running, raise a timeout error through
`_checkError` (a JavaScript `Error` whose message is `网络连接超时` and whose
runtime `stack` string is `stack`) and end the output stream; otherwise do
nothing. -/
def Transport.onTimeout (t : Transport) (stack : String) : Transport × Option Notif :=
  if t.streamOpen && t.isRunning then
    let (t', n) := t.checkError (ErrShape.errObj "网络连接超时" stack)
    ({t' with streamOpen := false}, n)
  else (t, none)

/-- The read-stream side of the upload transport that `_checkAlive` acts on
(uploader Transport line 50): the watchdog emits `abort` on the current read
stream. -/
structure UploadStream where
  aborted : Bool
deriving DecidableEq, Repr

/-- The uploader `_checkAlive` firing (uploader Transport line 50):
`this._stream.emit('abort')`, unconditionally aborting the read stream. -/
def uploadWatchdogFire (s : UploadStream) : UploadStream :=
  {s with aborted := true}

/-- The 10-second debounce window (`10e3` milliseconds) both transports pass
to `debounce` (downloader/index.js line 135 and uploader Transport line 50). -/
def debounceWindow : Nat := 10000

/-- Modelled from the spec: `lodash.debounce` is an external library; §4.4
specifies its contract — any progress event resets the timer and the watchdog
fires only after a full quiet window.  Given the list of times (epoch ms) at
which the debounced function was invoked, the trailing-edge fire happens at
`t` exactly when some invocation occurred at `t - debounceWindow` and no
invocation falls strictly inside the window after it. -/
def debounceFiresAt (window : Nat) (calls : List Nat) (t : Nat) : Bool :=
  calls.any fun c =>
    (t == c + window) && calls.all fun c2 => (c2 ≤ c) || (c + window ≤ c2)

/-- The state of a bounded-concurrency queue of the async library: tasks
waiting for a slot, tasks currently being worked, and the log of launches in
order (oldest first). -/
structure QueueState (α : Type) where
  pending : List α
  running : List α
  launched : List α

/-- Modelled from the spec: `async.queue` is an external library; §2/§4.5
specify its contract — a FIFO queue that hands at most `c` items to the
worker concurrently, with `push` appending at the back, `unshift` at the
front, and `done()` freeing a slot.  A step of a queue with concurrency
`c`. -/
inductive QStep (c : Nat) {α : Type} : QueueState α → QueueState α → Prop
  | push (s : QueueState α) (t : α) :
      QStep c s ⟨s.pending ++ [t], s.running, s.launched⟩
  | unshift (s : QueueState α) (t : α) :
      QStep c s ⟨t :: s.pending, s.running, s.launched⟩
  | launch (t : α) (p r l : List α) (h : r.length < c) :
      QStep c ⟨t :: p, r, l⟩ ⟨p, r ++ [t], l ++ [t]⟩
  | complete (t : α) (p r₁ r₂ l : List α) :
      QStep c ⟨p, r₁ ++ t :: r₂, l⟩ ⟨p, r₁ ++ r₂, l⟩

/-- Reachability of queue states from an initial state by `QStep`s. -/
inductive QReach (c : Nat) {α : Type} (init : QueueState α) : QueueState α → Prop
  | refl : QReach c init init
  | tail {s t : QueueState α} : QReach c init s → QStep c s t → QReach c init t

/-- The Dispatcher's admission-queue concurrency
(`async.queue(..., 5)`, dispatcher.js line 23). -/
def dispatcherConcurrency : Nat := 5

/-- The per-task upload part-queue concurrency
(`queue(..., 1)`, uploader Transport line 98). -/
def partQueueConcurrency : Nat := 1

/-- A step of the per-task part queue built by `MultiTransport.resume`
(uploader Transport lines 96-109): the whole `remainParts` list is pushed
once at construction, after which the queue only launches the head of the
pending list when a worker slot (of `partQueueConcurrency`) is free and
retires completed parts; no further admissions occur. -/
inductive PartQStep : QueueState UploadPart → QueueState UploadPart → Prop
  | launch (t : UploadPart) (p r l : List UploadPart)
      (h : r.length < partQueueConcurrency) :
      PartQStep ⟨t :: p, r, l⟩ ⟨p, r ++ [t], l ++ [t]⟩
  | complete (t : UploadPart) (p r₁ r₂ l : List UploadPart) :
      PartQStep ⟨p, r₁ ++ t :: r₂, l⟩ ⟨p, r₁ ++ r₂, l⟩

/-- Reachability for the per-task part queue, starting from the state
`MultiTransport.resume` creates: all of `remainParts` pending, nothing
running. -/
inductive PartQReach (remainParts : List UploadPart) : QueueState UploadPart → Prop
  | refl : PartQReach remainParts ⟨remainParts, [], []⟩
  | tail {s t : QueueState UploadPart} :
      PartQReach remainParts s → PartQStep s t → PartQReach remainParts t

/-- Lookup in the Dispatcher's `_transportCache` object, modelled as an
association list keyed by uuid. -/
def cacheLookup : List (String × Transport) → String → Option Transport
  | [], _ => none
  | (k, t) :: rest, uuid => if k = uuid then some t else cacheLookup rest uuid

/-- In-place mutation of a cached transport (`this._transportCache[uuid]` is
mutated by its own methods in JavaScript), modelled as updating the entry. -/
def cacheUpdate : List (String × Transport) → String → Transport → List (String × Transport)
  | [], _, _ => []
  | (k, t) :: rest, uuid, t' =>
    if k = uuid then (k, t') :: rest else (k, t) :: cacheUpdate rest uuid t'

/-- The Dispatcher state the claims touch (dispatcher.js lines 18-24): the
transport cache and the pending side of the admission queue. -/
structure Dispatcher where
  cache : List (String × Transport)
  queuePending : List Transport

/-- `Dispatcher.pauseItem` (dispatcher.js lines 87-91): when the uuid is
cached, call `pause()` on the cached transport (mutating it in place) — the
cache entry itself is retained. -/
def Dispatcher.pauseItem (d : Dispatcher) (uuid : String) : Dispatcher × Option Notif :=
  match cacheLookup d.cache uuid with
  | none => (d, none)
  | some t =>
    let (t', n) := t.pause
    ({d with cache := cacheUpdate d.cache uuid t'}, some n)

/-- `Dispatcher.resumeItem` (dispatcher.js lines 100-104): when the uuid is
cached, `unshift` the cached transport onto the front of the admission
queue. -/
def Dispatcher.resumeItem (d : Dispatcher) (uuid : String) : Dispatcher :=
  match cacheLookup d.cache uuid with
  | none => d
  | some t => {d with queuePending := t :: d.queuePending}

/-- One download-run terminal check event: the GET promise resolving
(`_checkFinish`) or a caught error (`_checkError err`). -/
inductive TerminalCheck
  | finish
  | error (err : ErrShape)
deriving DecidableEq, Repr

/-- Run a sequence of terminal checks against a transport, collecting the
notifications that are actually emitted. -/
def runTerminalChecks (t : Transport) : List TerminalCheck → Transport × List Notif
  | [] => (t, [])
  | c :: rest =>
    let (t', n) :=
      match c with
      | TerminalCheck.finish => t.checkFinish
      | TerminalCheck.error err => t.checkError err
    let (t'', ns) := runTerminalChecks t' rest
    (t'', n.toList ++ ns)

/-- The downloader write-stream error handler (downloader/index.js lines
178-182): an `error` event carrying a Node error with code `errCode` invokes
`_checkError` only when the code is `EACCES`; every other code is ignored. -/
def onOutputStreamError (t : Transport) (errCode : String) (err : ErrShape) :
    Transport × Option Notif :=
  if errCode = "EACCES" then t.checkError err else (t, none)

/-- A sample transfer task used to instantiate the queue theorems on concrete
states. -/
def burstTask : Transport :=
  ⟨"t1", "k1", TransportStatus.Running, true, none, 0⟩

/-- Two sample planned parts used to instantiate the part-queue theorems. -/
def samplePart1 : UploadPart := ⟨1, 10, 0⟩

/-- Second sample planned part. -/
def samplePart2 : UploadPart := ⟨2, 10, 10⟩

theorem partsSize_nil : partsSize [] = 0 := rfl

theorem partsSize_cons (p : UploadPart) (ps : List UploadPart) :
    partsSize (p :: ps) = p.partSize + partsSize ps := by
  simp [partsSize]

theorem decomposeLoop_sum (avg : Nat) (havg : 1 ≤ avg) (fuel : Nat) :
    ∀ left ofs pn, left ≤ fuel →
      partsSize (decomposeLoop avg fuel left ofs pn) = left := by
  induction fuel with
  | zero =>
    intro left ofs pn h
    have hl : left = 0 := Nat.le_zero.mp h
    subst hl
    rfl
  | succ n ih =>
    intro left ofs pn h
    by_cases hl : left > 0
    · have hfuel : left - min left avg ≤ n := by omega
      simp only [decomposeLoop, if_pos hl, partsSize_cons]
      rw [ih _ (ofs + min left avg) (pn + 1) hfuel]
      omega
    · have hl0 : left = 0 := by omega
      subst hl0
      rfl

theorem decomposeLoop_contiguous (avg fuel : Nat) :
    ∀ left ofs pn, contiguousFrom ofs (decomposeLoop avg fuel left ofs pn) = true := by
  induction fuel with
  | zero => intro left ofs pn; rfl
  | succ n ih =>
    intro left ofs pn
    by_cases hl : left > 0
    · simp only [decomposeLoop, if_pos hl, contiguousFrom]
      simp [ih]
    · simp only [decomposeLoop, if_neg hl]
      rfl

theorem decomposeLoop_length_le (avg : Nat) (havg : 1 ≤ avg) (fuel : Nat) :
    ∀ left ofs pn d, left ≤ fuel → left ≤ avg * d →
      (decomposeLoop avg fuel left ofs pn).length ≤ d := by
  induction fuel with
  | zero =>
    intro left ofs pn d h hb
    have hl : left = 0 := Nat.le_zero.mp h
    subst hl
    simp [decomposeLoop]
  | succ n ih =>
    intro left ofs pn d h hb
    by_cases hl : left > 0
    · have hd : 1 ≤ d := by
        rcases Nat.eq_zero_or_pos d with h0 | h0
        · subst h0
          rw [Nat.mul_zero] at hb
          omega
        · exact h0
      have hmul : avg * d = avg * (d - 1) + avg := by
        have hdd : d - 1 + 1 = d := by omega
        calc avg * d = avg * (d - 1 + 1) := by rw [hdd]
          _ = avg * (d - 1) + avg := by ring
      have hrec : left - min left avg ≤ avg * (d - 1) := by
        rcases le_total left avg with hc | hc
        · rw [Nat.min_eq_left hc, Nat.sub_self]
          exact Nat.zero_le _
        · rw [Nat.min_eq_right hc]
          exact tsub_le_iff_right.mpr (hmul ▸ hb)
      have hfuel : left - min left avg ≤ n := by omega
      simp only [decomposeLoop, if_pos hl, List.length_cons]
      have hlen := ih (left - min left avg) (ofs + min left avg) (pn + 1) (d - 1) hfuel hrec
      omega
    · simp only [decomposeLoop, if_neg hl, List.length_nil]
      omega

/-- C2: for every planner input with `totalSize > uploadedSize`, the returned
parts' sizes sum exactly to `totalSize - uploadedSize` and their start offsets
are contiguous from `uploadedSize`. -/
theorem C2_decompose_sum_and_contiguous
    (orderedParts : List UploadPart) (maxParts uploadSize totalSize : Nat)
    (h : totalSize > uploadSize) :
    partsSize (_decompose orderedParts maxParts uploadSize totalSize)
      = totalSize - uploadSize ∧
    contiguousFrom uploadSize (_decompose orderedParts maxParts uploadSize totalSize)
      = true := by
  unfold _decompose
  by_cases h1 : orderedParts.length < maxParts
  · rw [if_pos h1]
    have havg : 1 ≤ max kPartSize ((totalSize + (maxParts - orderedParts.length) - 1)
        / (maxParts - orderedParts.length)) :=
      le_trans (by norm_num [kPartSize]) (le_max_left _ _)
    exact ⟨decomposeLoop_sum _ havg _ _ _ _ le_rfl, decomposeLoop_contiguous _ _ _ _ _⟩
  · rw [if_neg h1]
    by_cases h2 : orderedParts.length = maxParts
    · rw [if_pos h2, if_pos h]
      refine ⟨by simp [partsSize], by simp [contiguousFrom]⟩
    · rw [if_neg h2]
      have havg : 1 ≤ kPartSize := by norm_num [kPartSize]
      exact ⟨decomposeLoop_sum _ havg _ _ _ _ le_rfl, decomposeLoop_contiguous _ _ _ _ _⟩

theorem C2_decompose_sum_and_contiguous_witness :
    partsSize (_decompose [] 1000 0 100) = 100 ∧
    contiguousFrom 0 (_decompose [] 1000 0 100) = true :=
  C2_decompose_sum_and_contiguous [] 1000 0 100 (by decide)

/-- C3: with `existingPartCount < maxParts`, the number of already-existing
parts plus the number of parts the planner returns never exceeds
`maxParts`. -/
theorem C3_decompose_maxParts_bound
    (orderedParts : List UploadPart) (maxParts uploadSize totalSize : Nat)
    (h : orderedParts.length < maxParts) :
    orderedParts.length
      + (_decompose orderedParts maxParts uploadSize totalSize).length
      ≤ maxParts := by
  unfold _decompose
  rw [if_pos h]
  have hd : 0 < maxParts - orderedParts.length := by omega
  have havg : 1 ≤ max kPartSize ((totalSize + (maxParts - orderedParts.length) - 1)
      / (maxParts - orderedParts.length)) :=
    le_trans (by norm_num [kPartSize]) (le_max_left _ _)
  have h1 : totalSize ≤ (maxParts - orderedParts.length)
      • (totalSize ⌈/⌉ (maxParts - orderedParts.length)) :=
    le_smul_ceilDiv hd
  rw [Nat.ceilDiv_eq_add_pred_div, smul_eq_mul] at h1
  have h2 : (maxParts - orderedParts.length)
        * ((totalSize + (maxParts - orderedParts.length) - 1)
          / (maxParts - orderedParts.length))
      ≤ (max kPartSize ((totalSize + (maxParts - orderedParts.length) - 1)
          / (maxParts - orderedParts.length)))
        * (maxParts - orderedParts.length) := by
    rw [Nat.mul_comm]
    exact Nat.mul_le_mul_right _ (le_max_right _ _)
  have hkey : totalSize - uploadSize
      ≤ (max kPartSize ((totalSize + (maxParts - orderedParts.length) - 1)
          / (maxParts - orderedParts.length)))
        * (maxParts - orderedParts.length) :=
    le_trans (Nat.sub_le _ _) (le_trans h1 h2)
  have hlen := decomposeLoop_length_le _ havg _ (totalSize - uploadSize)
    uploadSize (orderedParts.length + 1) (maxParts - orderedParts.length)
    le_rfl hkey
  omega

theorem C3_decompose_maxParts_bound_witness :
    ([] : List UploadPart).length
      + (_decompose [] 1000 0 (55 * 1024 * 1024)).length
      ≤ 1000 :=
  C3_decompose_maxParts_bound [] 1000 0 (55 * 1024 * 1024) (by decide)

/-- C8: the concrete 55 MiB scenario — no existing parts, `maxParts = 1000`,
nothing uploaded: the planner returns exactly three parts, 20 MiB at offset
0, 20 MiB at offset 20 MiB, and 15 MiB at offset 40 MiB, numbered 1..3. -/
theorem C8_decompose_55MiB_scenario :
    _decompose [] 1000 0 (55 * 1024 * 1024) =
      [⟨1, 20 * 1024 * 1024, 0⟩,
       ⟨2, 20 * 1024 * 1024, 20 * 1024 * 1024⟩,
       ⟨3, 15 * 1024 * 1024, 40 * 1024 * 1024⟩] := by
  decide

/-- C1: the claim fails on the code.  With local size equal to remote size
(and the local file newer, or the mtimes equal, as in the 0-byte scenario)
the first branch `size >= xMetaSize` wins and `start()` calls `resume()` —
a full restart that opens a write stream and issues a GET.  Moreover the
`_checkFinish()` branch of the metadata decision is unreachable for every
input: its guard can only be reached when `size < xMetaSize`, which the
middle branch already captures. -/
theorem C1_sizes_equal_restarts_finish_unreachable :
    downloadStartDecision 0 0 0 0 = StartAction.restart ∧
    downloadStartDecision 0 0 1 0 = StartAction.restart ∧
    ∀ (size xMetaSize : Nat) (mtimeMs xMetaModifiedTime : Int),
      downloadStartDecision size xMetaSize mtimeMs xMetaModifiedTime
        ≠ StartAction.finishNoRead := by
  refine ⟨by decide, by decide, ?_⟩
  intro size xMetaSize mtimeMs xMetaModifiedTime
  unfold downloadStartDecision
  by_cases h1 : size ≥ xMetaSize ∨ mtimeMs ≤ xMetaModifiedTime
  · simp [h1]
  · have h2 : size < xMetaSize := by omega
    simp [h1, h2]

/-- C4 counterexample: a write-stream error event whose code is not EACCES
(here ENOSPC) on a Running download produces no Error notification and leaves
the transport unchanged — the error is silently swallowed, refuting the claim
as stated. -/
theorem C4_stream_error_swallowed_counterexample :
    onOutputStreamError
      ⟨"task-1", "dir/obj", TransportStatus.Running, true, none, 0⟩
      "ENOSPC" (ErrShape.errObj "no space left on device" "") =
    (⟨"task-1", "dir/obj", TransportStatus.Running, true, none, 0⟩, none) := by
  rfl

/-- C4 (amended): every error reaching `_checkError` on a Running transport is
surfaced as an Error notification carrying the task id and a description,
whatever its shape; but on the download's local write stream only error
events with code EACCES reach `_checkError` — any other code is ignored. -/
theorem C4_error_surfacing_amended (t : Transport) (err : ErrShape) (code : String)
    (h : t.isRunning = true) :
    (∃ s, (t.checkError err).2 = some (Notif.error t.uuid s)) ∧
    ((onOutputStreamError t code err).2 ≠ none ↔ code = "EACCES") := by
  have hemit : ∃ s, (t.checkError err).2 = some (Notif.error t.uuid s) := by
    cases err <;> simp [Transport.checkError, h]
  refine ⟨hemit, ?_⟩
  unfold onOutputStreamError
  by_cases hc : code = "EACCES"
  · obtain ⟨s, hs⟩ := hemit
    simp [hc, hs]
  · simp [hc]

theorem C4_error_surfacing_amended_witness :
    (∃ s, ((⟨"task-1", "dir/obj", TransportStatus.Running, true, none, 0⟩ :
        Transport).checkError (ErrShape.str "boom")).2 =
      some (Notif.error "task-1" s)) ∧
    ((onOutputStreamError
        ⟨"task-1", "dir/obj", TransportStatus.Running, true, none, 0⟩
        "EACCES" (ErrShape.str "boom")).2 ≠ none ↔ "EACCES" = "EACCES") :=
  C4_error_surfacing_amended
    ⟨"task-1", "dir/obj", TransportStatus.Running, true, none, 0⟩
    (ErrShape.str "boom") "EACCES" rfl

theorem checkFinish_not_running (t : Transport) (h : t.isRunning = false) :
    t.checkFinish = (t, none) := by
  simp [Transport.checkFinish, h]

theorem checkError_not_running (t : Transport) (err : ErrShape)
    (h : t.isRunning = false) :
    t.checkError err = (t, none) := by
  cases err <;> simp [Transport.checkError, h]

theorem runTerminalChecks_not_running (t : Transport) (h : t.isRunning = false)
    (calls : List TerminalCheck) :
    runTerminalChecks t calls = (t, []) := by
  induction calls with
  | nil => rfl
  | cons c rest ih =>
    cases c with
    | finish =>
      simp [runTerminalChecks, checkFinish_not_running t h, ih]
    | error err =>
      simp [runTerminalChecks, checkError_not_running t err h, ih]

theorem runTerminalChecks_length_le (t : Transport) (calls : List TerminalCheck) :
    (runTerminalChecks t calls).2.length ≤ 1 := by
  induction calls generalizing t with
  | nil => simp [runTerminalChecks]
  | cons c rest ih =>
    by_cases hr : t.isRunning = true
    · cases c with
      | finish =>
        have hnr : ({t with state := TransportStatus.Finished} : Transport).isRunning
            = false := by
          simp [Transport.isRunning]
        simp [runTerminalChecks, Transport.checkFinish, hr,
          runTerminalChecks_not_running _ hnr rest]
      | error err =>
        have hnr : ({t with state := TransportStatus.Error} : Transport).isRunning
            = false := by
          simp [Transport.isRunning]
        cases err <;>
          simp [runTerminalChecks, Transport.checkError, hr,
            runTerminalChecks_not_running _ hnr rest]
    · have hf : t.isRunning = false := by
        cases hb : t.isRunning
        · rfl
        · exact absurd hb hr
      cases c with
      | finish =>
        simp [runTerminalChecks, checkFinish_not_running t hf]
        exact ih t
      | error err =>
        simp [runTerminalChecks, checkError_not_running t err hf]
        exact ih t

/-- C10: the terminal transitions act only on a Running transport — in any
other state a late completion or error changes nothing and emits nothing —
and consequently any sequence of terminal checks within one run emits at most
one terminal notification. -/
theorem C10_terminal_checks_at_most_one :
    (∀ (t : Transport) (err : ErrShape), t.isRunning = false →
      t.checkFinish = (t, none) ∧ t.checkError err = (t, none)) ∧
    (∀ (t : Transport) (calls : List TerminalCheck),
      (runTerminalChecks t calls).2.length ≤ 1) :=
  ⟨fun t err h => ⟨checkFinish_not_running t h, checkError_not_running t err h⟩,
   runTerminalChecks_length_le⟩

theorem C10_terminal_checks_at_most_one_witness :
    ((⟨"task-1", "dir/obj", TransportStatus.Paused, false, none, 0⟩ :
        Transport).checkFinish =
      (⟨"task-1", "dir/obj", TransportStatus.Paused, false, none, 0⟩, none) ∧
     (⟨"task-1", "dir/obj", TransportStatus.Paused, false, none, 0⟩ :
        Transport).checkError (ErrShape.str "late") =
      (⟨"task-1", "dir/obj", TransportStatus.Paused, false, none, 0⟩, none)) ∧
    (runTerminalChecks
      ⟨"task-2", "dir/obj", TransportStatus.Running, true, none, 0⟩
      [TerminalCheck.finish, TerminalCheck.finish]).2.length ≤ 1 :=
  ⟨C10_terminal_checks_at_most_one.1
    ⟨"task-1", "dir/obj", TransportStatus.Paused, false, none, 0⟩
    (ErrShape.str "late") rfl,
   C10_terminal_checks_at_most_one.2
    ⟨"task-2", "dir/obj", TransportStatus.Running, true, none, 0⟩
    [TerminalCheck.finish, TerminalCheck.finish]⟩

theorem QReach_running_le (c : Nat) {α : Type} (init : QueueState α)
    (hinit : init.running.length ≤ c) :
    ∀ s, QReach c init s → s.running.length ≤ c := by
  intro s h
  induction h with
  | refl => exact hinit
  | tail hr hstep ih =>
    cases hstep with
    | push s t => simpa using ih
    | unshift s t => simpa using ih
    | launch t p r l hlt =>
      simp only [List.length_append, List.length_cons, List.length_nil] at *
      omega
    | complete t p r₁ r₂ l =>
      simp only [List.length_append, List.length_cons, List.length_nil] at *
      omega

/-- C5: from the Dispatcher's empty initial queue, every reachable queue
state — under any interleaving of admissions (push/unshift), launches and
completions, in particular a burst of N > 5 admissions — has at most
`dispatcherConcurrency = 5` tasks concurrently running. -/
theorem C5_dispatcher_concurrency_bound (s : QueueState Transport)
    (h : QReach dispatcherConcurrency ⟨[], [], []⟩ s) :
    s.running.length ≤ dispatcherConcurrency :=
  QReach_running_le dispatcherConcurrency ⟨[], [], []⟩ (by simp) s h

theorem C5_dispatcher_concurrency_bound_witness :
    (⟨[], [burstTask], [burstTask]⟩ :
      QueueState Transport).running.length ≤ dispatcherConcurrency := by
  have step1 : QStep dispatcherConcurrency
      (⟨[], [], []⟩ : QueueState Transport) ⟨[burstTask], [], []⟩ :=
    QStep.push ⟨[], [], []⟩ burstTask
  have step2 : QStep dispatcherConcurrency
      (⟨[burstTask], [], []⟩ : QueueState Transport)
      ⟨[], [burstTask], [burstTask]⟩ :=
    QStep.launch burstTask [] [] [] (by decide)
  exact C5_dispatcher_concurrency_bound _
    (QReach.tail (QReach.tail QReach.refl step1) step2)

/-- C7: within one upload task, every state of the per-task part queue
reachable from `resume`'s initial push of `remainParts` has at most one part
in flight, and the launch log followed by the still-pending parts is exactly
`remainParts` — parts are started strictly sequentially in list order. -/
theorem C7_upload_part_queue_sequential (remainParts : List UploadPart)
    (s : QueueState UploadPart) (h : PartQReach remainParts s) :
    s.running.length ≤ 1 ∧ s.launched ++ s.pending = remainParts := by
  induction h with
  | refl => simp
  | tail hr hstep ih =>
    cases hstep with
    | launch t p r l hlt =>
      obtain ⟨ih1, ih2⟩ := ih
      constructor
      · simp only [List.length_append, List.length_cons, List.length_nil]
        have : r.length < partQueueConcurrency := hlt
        simp only [partQueueConcurrency] at this
        omega
      · simp only [List.append_assoc, List.cons_append, List.nil_append] at ih2 ⊢
        exact ih2
    | complete t p r₁ r₂ l =>
      obtain ⟨ih1, ih2⟩ := ih
      constructor
      · simp only [List.length_append, List.length_cons, List.length_nil] at ih1 ⊢
        omega
      · exact ih2

theorem C7_upload_part_queue_sequential_witness :
    ((⟨[samplePart2], [samplePart1], [samplePart1]⟩ :
        QueueState UploadPart).running.length ≤ 1) ∧
    (⟨[samplePart2], [samplePart1], [samplePart1]⟩ :
        QueueState UploadPart).launched ++
      (⟨[samplePart2], [samplePart1], [samplePart1]⟩ :
        QueueState UploadPart).pending = [samplePart1, samplePart2] := by
  have step1 : PartQStep ⟨[samplePart1, samplePart2], [], []⟩
      ⟨[samplePart2], [samplePart1], [samplePart1]⟩ :=
    PartQStep.launch samplePart1 [samplePart2] [] [] (by decide)
  exact C7_upload_part_queue_sequential [samplePart1, samplePart2] _
    (PartQReach.tail PartQReach.refl step1)

theorem cacheLookup_update_self (c : List (String × Transport)) (uuid : String)
    (t t' : Transport) (h : cacheLookup c uuid = some t) :
    cacheLookup (cacheUpdate c uuid t') uuid = some t' := by
  induction c with
  | nil => simp [cacheLookup] at h
  | cons kv rest ih =>
    obtain ⟨k, v⟩ := kv
    by_cases hk : k = uuid
    · simp [cacheLookup, cacheUpdate, hk]
    · simp only [cacheLookup, cacheUpdate, hk, if_false, if_neg hk] at h ⊢
      exact ih h

/-- C6: for a cached task, `pauseItem` immediately followed by `resumeItem`
retains the cache entry, changes nothing but the state (and the closed
stream): the `uploadId` and `uploadedSize` of the cached transport are
unchanged, and that same (now Paused) transport is re-admitted at the front
of the admission queue. -/
theorem C6_pause_resume_preserves_progress (d : Dispatcher) (uuid : String)
    (t : Transport) (h : cacheLookup d.cache uuid = some t) :
    cacheLookup (((d.pauseItem uuid).1.resumeItem uuid)).cache uuid
      = some t.pause.1 ∧
    t.pause.1.uploadId = t.uploadId ∧
    t.pause.1.uploadedSize = t.uploadedSize ∧
    ((d.pauseItem uuid).1.resumeItem uuid).queuePending.head? = some t.pause.1 := by
  have h1 : (d.pauseItem uuid).1
      = {d with cache := cacheUpdate d.cache uuid t.pause.1} := by
    simp [Dispatcher.pauseItem, h]
  have h2 : cacheLookup ((d.pauseItem uuid).1).cache uuid = some t.pause.1 := by
    rw [h1]
    exact cacheLookup_update_self d.cache uuid t t.pause.1 h
  refine ⟨?_, rfl, rfl, ?_⟩
  · simp [Dispatcher.resumeItem, h2]
  · simp [Dispatcher.resumeItem, h2]

theorem C6_pause_resume_preserves_progress_witness :
    cacheLookup
      (((Dispatcher.mk
          [("u1", ⟨"u1", "k1", TransportStatus.Running, true, some "upl-9", 42⟩)]
          []).pauseItem "u1").1.resumeItem "u1").cache "u1"
      = some (⟨"u1", "k1", TransportStatus.Running, true, some "upl-9", 42⟩ :
          Transport).pause.1 ∧
    (⟨"u1", "k1", TransportStatus.Running, true, some "upl-9", 42⟩ :
        Transport).pause.1.uploadId = some "upl-9" ∧
    (⟨"u1", "k1", TransportStatus.Running, true, some "upl-9", 42⟩ :
        Transport).pause.1.uploadedSize = 42 ∧
    (((Dispatcher.mk
        [("u1", ⟨"u1", "k1", TransportStatus.Running, true, some "upl-9", 42⟩)]
        []).pauseItem "u1").1.resumeItem "u1").queuePending.head?
      = some (⟨"u1", "k1", TransportStatus.Running, true, some "upl-9", 42⟩ :
          Transport).pause.1 :=
  C6_pause_resume_preserves_progress
    (Dispatcher.mk
      [("u1", ⟨"u1", "k1", TransportStatus.Running, true, some "upl-9", 42⟩)] [])
    "u1" ⟨"u1", "k1", TransportStatus.Running, true, some "upl-9", 42⟩ rfl

/-- C9: the liveness watchdog.  (a) If some progress event at time `c` is the
last one, the debounced watchdog fires at `c + 10 s`; (b) a progress event
arriving strictly inside the window cancels that fire — the timer is reset;
(c) when it fires on a Running download with an open stream, `_onTimeout`
transitions the task to Error with the network-timeout error and ends the
write stream; (d) when it fires on an upload, the read stream is aborted. -/
theorem C9_watchdog_fires_and_resets :
    (∀ (c : Nat) (calls : List Nat), c ∈ calls → (∀ c2 ∈ calls, c2 ≤ c) →
      debounceFiresAt debounceWindow calls (c + debounceWindow) = true) ∧
    (∀ (c c2 : Nat) (calls : List Nat), c2 ∈ calls → c < c2 →
      c2 < c + debounceWindow →
      debounceFiresAt debounceWindow calls (c + debounceWindow) = false) ∧
    (∀ (t : Transport) (stk : String), t.isRunning = true → t.streamOpen = true →
      t.onTimeout stk =
        ({t with state := TransportStatus.Error, streamOpen := false},
         some (Notif.error t.uuid ("网络连接超时" ++ stk)))) ∧
    (∀ s : UploadStream, uploadWatchdogFire s = ⟨true⟩) := by
  refine ⟨?_, ?_, ?_, ?_⟩
  · intro c calls hc hlast
    simp only [debounceFiresAt, List.any_eq_true]
    refine ⟨c, hc, ?_⟩
    simp only [beq_self_eq_true, Bool.true_and, List.all_eq_true]
    intro c2 hc2
    have := hlast c2 hc2
    simp [this]
  · intro c c2 calls hc2 hgt hlt
    simp only [debounceFiresAt, List.any_eq_false]
    intro c3 hc3
    by_cases he : c3 = c
    · subst he
      intro hcontra
      simp only [beq_self_eq_true, Bool.true_and, List.all_eq_true] at hcontra
      have hbad := hcontra c2 hc2
      simp only [Bool.or_eq_true, decide_eq_true_eq] at hbad
      omega
    · intro hcontra
      simp only [Bool.and_eq_true, beq_iff_eq] at hcontra
      obtain ⟨heq, _⟩ := hcontra
      omega
  · intro t stk h1 h2
    simp [Transport.onTimeout, Transport.checkError, h1, h2]
  · intro s
    rfl

theorem C9_watchdog_fires_and_resets_witness :
    (debounceFiresAt debounceWindow [0] (0 + debounceWindow) = true) ∧
    (debounceFiresAt debounceWindow [0, 5000] (0 + debounceWindow) = false) ∧
    (Transport.onTimeout burstTask "trace" =
      ({burstTask with state := TransportStatus.Error, streamOpen := false},
       some (Notif.error burstTask.uuid ("网络连接超时" ++ "trace")))) ∧
    (uploadWatchdogFire ⟨false⟩ = ⟨true⟩) :=
  ⟨C9_watchdog_fires_and_resets.1 0 [0] (by decide) (by decide),
   C9_watchdog_fires_and_resets.2.1 0 5000 [0, 5000] (by decide) (by decide)
     (by decide),
   C9_watchdog_fires_and_resets.2.2.1 burstTask "trace" rfl rfl,
   C9_watchdog_fires_and_resets.2.2.2 ⟨false⟩⟩
